import Mathlib

/-!
Verification development for the GrokFlow constraint engine
(`grokflow_constraints.py`): a shallow embedding of the
`ConstraintManager` and `ConstraintSupervisor` classes, together with
theorems about the matching, indexing and analytics algorithms.

Modelling conventions:
- Python `float` arithmetic is modelled with `ℚ` (the analytics formulas
  only involve exact small fractions).
- Python `datetime` timestamps are abstracted as `Nat` values supplied by
  the caller (`now`); nothing in the verified logic inspects them.
- Python's regex engine (`re`) is abstracted as a `RegexEngine`: a compile
  function that either yields a search predicate on the query or fails
  (modelling `re.error`).  The `_regex_cache` memoisation is semantically
  transparent (compile is deterministic) and is therefore not threaded.
- Python `dict`s are modelled as association lists; the `set` of candidate
  ids is determinised as a duplicate-free list (iteration order of a
  Python set is unspecified and no theorem below depends on it).
- `str.lower`, `str.isalnum` are modelled on the ASCII fragment.
-/

/-! ## String utilities (modelling Python string primitives) -/

/-- Python `s.lower()`, characterwise (ASCII fragment). -/
def toLowerStr (s : String) : String :=
  String.mk (s.data.map Char.toLower)

/-- Python `needle in hay` substring test. -/
def strContains (hay needle : String) : Bool :=
  (List.range (hay.data.length + 1)).any
    (fun i => needle.data.isPrefixOf (hay.data.drop i))

/-- Structural worker for `replaceList`: `fuel` bounds the number of
steps (each step consumes at least one character, so `fuel = l.length`
suffices and the exhaustion branch is unreachable). -/
def replaceListAux (pat rep : List Char) : Nat → List Char → List Char
  | _, [] => []
  | 0, l => l
  | fuel + 1, c :: rest =>
    if pat ≠ [] ∧ pat.isPrefixOf (c :: rest) then
      rep ++ replaceListAux pat rep fuel (rest.drop (pat.length - 1))
    else
      c :: replaceListAux pat rep fuel rest

/-- Replace every (non-overlapping, leftmost-first) occurrence of `pat` by
`rep`, as Python `str.replace` does for a non-empty pattern. -/
def replaceList (pat rep : List Char) (l : List Char) : List Char :=
  replaceListAux pat rep l.length l

/-- Python `str.replace` on whole strings. -/
def replaceStr (s pat rep : String) : String :=
  String.mk (replaceList pat.data rep.data s.data)

/-- Python `s.split(sep)` for a single-character separator: keeps empty
pieces, and `"".split(sep) = [""]`. -/
def splitOnChar (sep : Char) : List Char → List (List Char)
  | [] => [[]]
  | c :: rest =>
    if c = sep then
      [] :: splitOnChar sep rest
    else
      match splitOnChar sep rest with
      | [] => [[c]]
      | p :: ps => (c :: p) :: ps

/-- Python `s.strip()`: drop leading and trailing whitespace. -/
def stripChars (l : List Char) : List Char :=
  ((l.dropWhile Char.isWhitespace).reverse.dropWhile Char.isWhitespace).reverse

/-- Python `s.split()` (no-argument form): split on whitespace runs,
dropping empty pieces.  `cur` accumulates the current word reversed. -/
def wordsAux (cur : List Char) : List Char → List (List Char)
  | [] => if cur = [] then [] else [cur.reverse]
  | c :: rest =>
    if c.isWhitespace then
      if cur = [] then wordsAux [] rest
      else cur.reverse :: wordsAux [] rest
    else
      wordsAux (c :: cur) rest

/-! ## Rule data model -/

/-- One stored rule, mirroring the constraint dictionaries of
`grokflow_constraints.py`.  Fields absent from a v1 dictionary are
modelled by their Python `.get` defaults (`version` defaults to 1,
`trigger_patterns` to `[]`, `trigger_logic` to `"OR"`,
`context_filters` to the empty mapping, `enabled` to `true`). -/
structure Constraint where
  constraint_id : String
  description : String := ""
  version : Nat := 1
  trigger_keywords : List String := []
  trigger_patterns : List String := []
  trigger_logic : String := "OR"
  context_filters : List (String × List String) := []
  enforcement_action : String := "warn"
  enforcement_message : String := ""
  triggered_count : Nat := 0
  last_triggered : Option Nat := none
  enabled : Bool := true
  deriving DecidableEq, Repr

/-- Execution context: a flat mapping from string keys to string values
(`{"query_type": "generate", ...}`). -/
def Ctx := List (String × String)

/-- Python `context.get(key)`. -/
def ctxGet (context : Ctx) (key : String) : Option String :=
  match context with
  | [] => none
  | (k, v) :: rest => if k = key then some v else ctxGet rest key

/-- Lookup of a filter key in a `context_filters` mapping. -/
def filtersGet (filters : List (String × List String)) (key : String) :
    Option (List String) :=
  match filters with
  | [] => none
  | (k, v) :: rest => if k = key then some v else filtersGet rest key

/-! ## Regex abstraction and pattern predicates -/

/-- Abstraction of Python's `re` module: `compile p` returns `some search`
when `re.compile(p, re.IGNORECASE)` succeeds (where `search q` is the
boolean outcome of `regex.search(q)`), and `none` when compilation raises
`re.error`. -/
structure RegexEngine where
  compile : String → Option (String → Bool)

/-- An engine on which every pattern fails to compile (used to instantiate
theorems whose hypotheses only concern failing patterns). -/
def noRegexEngine : RegexEngine :=
  ⟨fun _ => none⟩

/-- Faithful translation of `ConstraintManager._check_regex_pattern`:
search with the compiled pattern; on `re.error` fall back to a
case-insensitive literal substring test of the raw pattern source. -/
def check_regex_pattern (E : RegexEngine) (query pattern : String) : Bool :=
  match E.compile pattern with
  | some search => search query
  | none => strContains (toLowerStr query) (toLowerStr pattern)

/-- The ordered predicate-outcome list built by
`ConstraintManager._check_patterns_phase2`: pattern outcomes first, then
keyword outcomes (`all_matches = pattern_matches + keyword_matches`). -/
def predicate_list (E : RegexEngine) (query : String) (c : Constraint) :
    List Bool :=
  c.trigger_patterns.map (fun p => check_regex_pattern E query p) ++
    c.trigger_keywords.map (fun kw => strContains (toLowerStr query) kw)

/-- Faithful translation of `ConstraintManager._check_patterns_phase2`. -/
def check_patterns_phase2 (E : RegexEngine) (query : String)
    (c : Constraint) : Bool :=
  let all_matches := predicate_list E query c
  if all_matches = [] then false
  else if c.trigger_logic = "OR" then all_matches.any id
  else if c.trigger_logic = "AND" then all_matches.all id
  else if c.trigger_logic = "NOT" then !(all_matches.any id)
  else all_matches.any id

/-- Faithful translation of `ConstraintManager._check_keywords_phase1`. -/
def check_keywords_phase1 (query : String) (c : Constraint) : Bool :=
  c.trigger_keywords.any (fun kw => strContains (toLowerStr query) kw)

/-- Faithful translation of `ConstraintManager._check_context_filters`:
note the source only consults the two hard-coded filter keys
`"query_type"` and `"vibe_mode"`; a `None` context value is never a member
of an allowed-value list. -/
def check_context_filters (context : Ctx)
    (filters : List (String × List String)) : Bool :=
  if filters = [] then true
  else
    (match filtersGet filters "query_type" with
     | none => true
     | some allowed =>
       match ctxGet context "query_type" with
       | none => false
       | some v => allowed.contains v) &&
    (match filtersGet filters "vibe_mode" with
     | none => true
     | some allowed =>
       match ctxGet context "vibe_mode" with
       | none => false
       | some v => allowed.contains v)

/-! ## Keyword index -/

/-- Whether a stripped candidate keyword passes the
`keyword.replace("_","").isalnum()` test of
`_extract_keyword_from_pattern` (Python `isalnum` is false on the empty
string). -/
def pyAlnumNoUnderscore (kw : List Char) : Bool :=
  let noUnderscore := kw.filter (fun c => c ≠ '_')
  noUnderscore ≠ [] && noUnderscore.all Char.isAlphanum

/-- Faithful translation of
`ConstraintManager._extract_keyword_from_pattern`: strip the regex
metacharacter strings in source order, split on alternation, take the
first piece, and accept it only if non-empty, at least 3 characters and
alphanumeric-or-underscore. -/
def extract_keyword_from_pattern (pattern : String) : Option String :=
  let cleaned := replaceList ".*".data [] pattern.data
  let cleaned := replaceList ".+".data [] cleaned
  let cleaned := replaceList "^".data [] cleaned
  let cleaned := replaceList "$".data [] cleaned
  let cleaned := replaceList "\\b".data [] cleaned
  let cleaned := replaceList "\\s*".data [] cleaned
  match splitOnChar '|' cleaned with
  | [] => none
  | p :: _ =>
    let keyword := stripChars p
    if keyword ≠ [] ∧ keyword.length ≥ 3 ∧ pyAlnumNoUnderscore keyword then
      some (String.mk (keyword.map Char.toLower))
    else none

/-- The keyword index: mapping from token to the list of constraint ids
indexed under it (a Python dict of lists; entry order is dict insertion
order, id order is append order with duplicate suppression). -/
def KIndex := List (String × List String)

/-- Index lookup (`word in self.keyword_index` / subscript). -/
def indexLookup (idx : KIndex) (key : String) : Option (List String) :=
  match idx with
  | [] => none
  | (k, ids) :: rest => if k = key then some ids else indexLookup rest key

/-- Add `cid` under `key`, creating the entry if missing and suppressing
duplicates, as the body of `_rebuild_keyword_index` does. -/
def indexInsert (idx : KIndex) (key cid : String) : KIndex :=
  match idx with
  | [] => [(key, [cid])]
  | (k, ids) :: rest =>
    if k = key then
      (k, if ids.contains cid then ids else ids ++ [cid]) :: rest
    else
      (k, ids) :: indexInsert rest key cid

/-- Index one constraint: all its `trigger_keywords`, plus the best-effort
literal extracted from each of its `trigger_patterns` when that literal is
at least 3 characters long.  A constraint with a falsy (empty) id is
skipped (`if not cid: continue`). -/
def indexConstraint (idx : KIndex) (c : Constraint) : KIndex :=
  if c.constraint_id = "" then idx
  else
    let idx1 := c.trigger_keywords.foldl
      (fun a kw => indexInsert a kw c.constraint_id) idx
    c.trigger_patterns.foldl
      (fun a p =>
        match extract_keyword_from_pattern p with
        | some kw => if kw.length ≥ 3 then indexInsert a kw c.constraint_id else a
        | none => a)
      idx1

/-- Faithful translation of `ConstraintManager._rebuild_keyword_index`. -/
def rebuild_keyword_index (constraints : List Constraint) : KIndex :=
  constraints.foldl indexConstraint []

/-- Tokenisation used by `_get_candidate_constraint_ids`:
`query.lower().replace(',', ' ').replace('.', ' ').split()`. -/
def tokenize (query : String) : List String :=
  let chars := (toLowerStr query).data.map
    (fun c => if c = ',' ∨ c = '.' then ' ' else c)
  (wordsAux [] chars).map String.mk

/-- Set-union step of `_get_candidate_constraint_ids`
(`candidate_ids.update(...)`), determinised as append-if-absent. -/
def addIds (acc ids : List String) : List String :=
  ids.foldl (fun a i => if a.contains i then a else a ++ [i]) acc

/-- Faithful translation of
`ConstraintManager._get_candidate_constraint_ids`: union of the index
entries of the query's tokens. -/
def get_candidate_constraint_ids (idx : KIndex) (query : String) :
    List String :=
  (tokenize query).foldl
    (fun acc w =>
      match indexLookup idx w with
      | some ids => addIds acc ids
      | none => acc)
    []

/-! ## The two matching entry points -/

/-- The stats side effect applied to a matched constraint
(`triggered_count += 1; last_triggered = now`). -/
def triggerUpdate (now : Nat) (c : Constraint) : Constraint :=
  { c with triggered_count := c.triggered_count + 1,
           last_triggered := some now }

/-- The per-constraint hit test of the legacy `check_constraints` loop:
enabled, and some trigger keyword is a substring of the lowered query. -/
def legacy_hit (query_lower : String) (c : Constraint) : Bool :=
  c.enabled && c.trigger_keywords.any (fun kw => strContains query_lower kw)

/-- Faithful translation of `ConstraintManager.check_constraints` (legacy
matching).  Returns the triggered list together with the updated
constraint store (the Python loop mutates the matched dictionaries in
place and appends those same dictionaries to `triggered`). -/
def check_constraints (now : Nat) (constraints : List Constraint)
    (query : String) : List Constraint × List Constraint :=
  let ql := toLowerStr query
  ((constraints.filter (legacy_hit ql)).map (triggerUpdate now),
   constraints.map (fun c => if legacy_hit ql c then triggerUpdate now c else c))

/-- Manager state: the stored constraints plus the derived keyword index
(the source rebuilds the index after every save, so a well-formed state
has `keyword_index = rebuild_keyword_index constraints`). -/
structure Manager where
  constraints : List Constraint
  keyword_index : KIndex

/-- Build a manager whose index is freshly rebuilt (the invariant state). -/
def Manager.fromConstraints (cs : List Constraint) : Manager :=
  ⟨cs, rebuild_keyword_index cs⟩

/-- Position of the last constraint carrying a given (truthy) id: the
`constraint_map` dict comprehension of `check_constraints_v2` is
last-wins on duplicate ids, and `constraints_to_check` holds the mapped
objects. -/
def lastIndexWithId : List Constraint → String → Option Nat
  | [], _ => none
  | c :: rest, cid =>
    match lastIndexWithId rest cid with
    | some j => some (j + 1)
    | none =>
      if c.constraint_id ≠ "" ∧ c.constraint_id = cid then some 0 else none

/-- Positions of the constraints examined by `check_constraints_v2`:
the indexed candidates when the candidate union is non-empty, every
stored constraint otherwise. -/
def checkedIndices (M : Manager) (query : String) : List Nat :=
  let cids := get_candidate_constraint_ids M.keyword_index query
  if cids = [] then List.range M.constraints.length
  else cids.filterMap (fun cid => lastIndexWithId M.constraints cid)

/-- The per-constraint acceptance test of the `check_constraints_v2` loop:
enabled; context filters honoured for version-2 constraints; then the
version-appropriate predicate evaluator (a version other than 1 or 2
leaves `matched = False`).  The `except Exception` fallback of the source
is unreachable in the embedding: `check_patterns_phase2` is total. -/
def v2_eligible (E : RegexEngine) (query : String) (context : Ctx)
    (c : Constraint) : Bool :=
  c.enabled &&
  (c.version != 2 || check_context_filters context c.context_filters) &&
  (if c.version = 1 then check_keywords_phase1 query c
   else if c.version = 2 then check_patterns_phase2 E query c
   else false)

/-- Store update of `check_constraints_v2`: the constraint at position `i`
is mutated exactly when it was examined (position in `idxs`) and accepted.
`start` is the position of the list head. -/
def v2UpdateAux (idxs : List Nat) (accept : Constraint → Bool) (now : Nat)
    (start : Nat) : List Constraint → List Constraint
  | [] => []
  | c :: rest =>
    (if idxs.contains start ∧ accept c then triggerUpdate now c else c) ::
      v2UpdateAux idxs accept now (start + 1) rest

/-- Faithful translation of `ConstraintManager.check_constraints_v2`.
Returns the triggered list together with the updated constraint store. -/
def check_constraints_v2 (E : RegexEngine) (now : Nat) (M : Manager)
    (query : String) (context : Ctx) :
    List Constraint × List Constraint :=
  let idxs := checkedIndices M query
  let accept := v2_eligible E query context
  (idxs.filterMap (fun i =>
     match M.constraints.get? i with
     | some c => if accept c then some (triggerUpdate now c) else none
     | none => none),
   v2UpdateAux idxs accept now 0 M.constraints)

/-! ## Supervisor analytics model -/

/-- One entry of a rule's `trigger_history`
(`{timestamp, query, result}`). -/
structure TriggerEvent where
  timestamp : Nat
  query : String
  result : String
  deriving DecidableEq, Repr

/-- One rule's analytics record, mirroring the dictionary created by
`ConstraintSupervisor.record_trigger` on first use. -/
structure ConstraintAnalytics where
  constraint_id : String
  total_triggers : Nat := 0
  false_positives : Nat := 0
  true_positives : Nat := 0
  unknown : Nat := 0
  auto_disabled_count : Nat := 0
  last_analyzed : Option Nat := none
  precision : ℚ := 0
  effectiveness_score : ℚ := 0
  drift_score : ℚ := 0
  trigger_history : List TriggerEvent := []
  deriving DecidableEq, Repr

/-- The `analytics["constraints"]` mapping: rule id → analytics record. -/
def Store := List (String × ConstraintAnalytics)

/-- Dict lookup in the analytics store. -/
def storeLookup (S : Store) (cid : String) : Option ConstraintAnalytics :=
  match S with
  | [] => none
  | (k, a) :: rest => if k = cid then some a else storeLookup rest cid

/-- Dict write in the analytics store: replace the existing entry or
append a new one. -/
def storeUpdate (S : Store) (cid : String) (a : ConstraintAnalytics) : Store :=
  match S with
  | [] => [(cid, a)]
  | (k, v) :: rest =>
    if k = cid then (k, a) :: rest else (k, v) :: storeUpdate rest cid a

/-- Faithful translation of `ConstraintSupervisor._calculate_precision`:
true-positive fraction of a trigger list, `0` on the empty list. -/
def calculate_precision (l : List TriggerEvent) : ℚ :=
  if l = [] then 0
  else (l.countP (fun t => t.result = "true_positive") : ℚ) / l.length

/-- Faithful translation of `ConstraintSupervisor._calculate_variance`:
population variance of booleans mapped to 0/1, `0` on the empty list. -/
def calculate_variance (values : List Bool) : ℚ :=
  if values = [] then 0
  else
    let nums : List ℚ := values.map (fun v => if v then 1 else 0)
    let mean := nums.sum / nums.length
    ((nums.map (fun x => (x - mean) ^ 2)).sum) / nums.length

/-- Python slice `h[-w:]`: for `w = 0` this is the **whole** list (the
`-0` quirk), otherwise the last `w` entries (all of them when `w`
exceeds the length). -/
def pySliceLast (h : List TriggerEvent) (w : Nat) : List TriggerEvent :=
  if w = 0 then h else h.drop (h.length - w)

/-- Python slice `h[-2*w:-w]` under the guard `h.length ≥ 2*w`: the `w`
entries preceding the last `w` (empty when `w = 0`). -/
def pySliceOlder (h : List TriggerEvent) (w : Nat) : List TriggerEvent :=
  (h.drop (h.length - 2 * w)).take w

/-- Faithful translation of `ConstraintSupervisor.detect_drift` (default
`window_size` is 10 at every call site in the source). -/
def detect_drift (S : Store) (cid : String) (window_size : Nat) : ℚ :=
  match storeLookup S cid with
  | none => 0
  | some a =>
    let h := a.trigger_history
    if h.length < window_size then 0
    else
      let recent := pySliceLast h window_size
      let older :=
        if h.length ≥ 2 * window_size then pySliceOlder h window_size else []
      let recent_precision := calculate_precision recent
      let older_precision :=
        if older = [] then recent_precision else calculate_precision older
      let precision_decline := max 0 (older_precision - recent_precision)
      let variance :=
        calculate_variance (recent.map (fun r => r.result = "true_positive"))
      min (precision_decline * (7 / 10) + variance * (3 / 10)) 1

/-- Faithful translation of `ConstraintSupervisor._recalculate_metrics`:
recompute `precision`, `effectiveness_score` and `drift_score` of one
record in place; a missing record is the caught `KeyError` (no-op). -/
def recalculate_metrics (now : Nat) (S : Store) (cid : String) : Store :=
  match storeLookup S cid with
  | none => S
  | some a =>
    let tp := a.true_positives
    let fp := a.false_positives
    let total := tp + fp
    let precision : ℚ := if total > 0 then (tp : ℚ) / total else 0
    let trigger_rate : ℚ := min ((total : ℚ) / 100) 1
    let a1 := { a with precision := precision,
                       effectiveness_score := precision * trigger_rate }
    let S1 := storeUpdate S cid a1
    let drift := detect_drift S1 cid 10
    storeUpdate S1 cid
      { a1 with drift_score := drift, last_analyzed := some now }

/-- The fresh record installed by `record_trigger` on first feedback. -/
def defaultAnalytics (cid : String) : ConstraintAnalytics :=
  { constraint_id := cid }

/-- Faithful translation of `ConstraintSupervisor.record_trigger`: create
the record if needed, bump the counter matching the feedback, append a
100-character excerpt to the history, evict down to the 50 most recent
entries, then recompute the derived metrics. -/
def record_trigger (now : Nat) (S : Store) (cid query user_feedback : String) :
    Store :=
  let a := (storeLookup S cid).getD (defaultAnalytics cid)
  let a := { a with total_triggers := a.total_triggers + 1 }
  let a :=
    if user_feedback = "true_positive" then
      { a with true_positives := a.true_positives + 1 }
    else if user_feedback = "false_positive" then
      { a with false_positives := a.false_positives + 1 }
    else
      { a with unknown := a.unknown + 1 }
  let hist := a.trigger_history ++
    [{ timestamp := now, query := String.mk (query.data.take 100),
       result := user_feedback }]
  let hist := if hist.length > 50 then hist.drop (hist.length - 50) else hist
  let S1 := storeUpdate S cid { a with trigger_history := hist }
  recalculate_metrics now S1 cid

/-- One `record_trigger` call site: timestamp, rule id, query, feedback. -/
structure FeedbackEvent where
  now : Nat
  cid : String
  query : String
  feedback : String

/-- Fold a sequence of `record_trigger` calls over a store. -/
def applyEvents (events : List FeedbackEvent) (S : Store) : Store :=
  events.foldl (fun acc e => record_trigger e.now acc e.cid e.query e.feedback) S

/-! ## Health analysis and suggestions -/

/-- Python `round(x, 3)` idealised over `ℚ`: round half to even at the
third decimal (the binary floating-point representation effects of the
source are abstracted away; every value inspected below is exact). -/
def pyRound3 (q : ℚ) : ℚ :=
  let scaled := q * 1000
  let f : ℤ := ⌊scaled⌋
  let r := scaled - f
  let n : ℤ :=
    if r < 1 / 2 then f
    else if 1 / 2 < r then f + 1
    else if f % 2 = 0 then f else f + 1
  (n : ℚ) / 1000

/-- The health report returned by
`ConstraintSupervisor.analyze_constraint_health` (the `no_data` /
`no_triggers` early returns carry only a status). -/
structure HealthReport where
  status : String
  precision : ℚ := 0
  fp_rate : ℚ := 0
  effectiveness_score : ℚ := 0
  drift_score : ℚ := 0
  total_triggers : Nat := 0
  true_positives : Nat := 0
  false_positives : Nat := 0
  recommendations : List String := []
  deriving DecidableEq, Repr

/-- Translation of
`ConstraintSupervisor._generate_health_recommendations`: same guard
structure and order; the four English message texts are abbreviated to
stable tags (no theorem below inspects the wording). -/
def generate_health_recommendations (precision fp_rate drift_score : ℚ) :
    List String :=
  let recs : List String :=
    (if precision < 7 / 10 then ["low_precision"] else []) ++
    (if fp_rate > 3 / 10 then ["high_fp_rate"] else []) ++
    (if drift_score > 1 / 2 then ["high_drift"] else []) ++
    (if drift_score > 7 / 10 then ["critical_drift"] else [])
  if recs = [] then ["performing_well"] else recs

/-- Faithful translation of
`ConstraintSupervisor.analyze_constraint_health`.  The numeric report
fields are rounded to three decimals as in the source; the status
thresholds are evaluated on the unrounded values. -/
def analyze_constraint_health (S : Store) (cid : String) : HealthReport :=
  match storeLookup S cid with
  | none => { status := "no_data" }
  | some a =>
    let tp := a.true_positives
    let fp := a.false_positives
    let total := tp + fp
    if total = 0 then { status := "no_triggers" }
    else
      let precision : ℚ := (tp : ℚ) / total
      let fp_rate : ℚ := (fp : ℚ) / total
      let drift_score := a.drift_score
      let status :=
        if precision ≥ 9 / 10 ∧ drift_score < 1 / 5 then "healthy"
        else if precision ≥ 3 / 4 ∧ drift_score < 1 / 2 then "acceptable"
        else if precision ≥ 1 / 2 ∨ drift_score < 7 / 10 then "needs_review"
        else "unhealthy"
      { status := status
        precision := pyRound3 precision
        fp_rate := pyRound3 fp_rate
        effectiveness_score := pyRound3 a.effectiveness_score
        drift_score := pyRound3 drift_score
        total_triggers := total
        true_positives := tp
        false_positives := fp
        recommendations :=
          generate_health_recommendations precision fp_rate drift_score }

/-- Faithful translation of `ConstraintManager.get_constraint`: exact id
or prefix of at least 4 characters, first stored match wins. -/
def get_constraint (constraints : List Constraint) (cid : String) :
    Option Constraint :=
  if cid.length < 4 then none
  else constraints.find? (fun c => cid.isPrefixOf c.constraint_id)

/-- One improvement suggestion.  The source also carries `reason` and
`suggestion` display strings (f-strings with 2-decimal formatting); only
the discriminating fields are modelled. -/
structure Suggestion where
  stype : String
  confidence : ℚ
  deriving DecidableEq, Repr

/-- The false-positive rate used by `suggest_improvements`:
`false_positives / max(total_triggers, 1)`. -/
def suggestFpRate (a : ConstraintAnalytics) : ℚ :=
  (a.false_positives : ℚ) / max a.total_triggers 1

/-- Faithful translation of `ConstraintSupervisor.suggest_improvements`:
narrow-pattern suggestions (one per pattern containing `".*"`), then
context-filter, enforcement-escalation and disable suggestions, each
emitted independently of the others. -/
def suggest_improvements (S : Store) (constraints : List Constraint)
    (cid : String) : List Suggestion :=
  match storeLookup S cid, get_constraint constraints cid with
  | some a, some c =>
    let fp_rate := suggestFpRate a
    let s1 :=
      if fp_rate > 1 / 5 ∧ c.trigger_patterns ≠ [] then
        (c.trigger_patterns.filter (fun p => strContains p ".*")).map
          (fun _ => { stype := "narrow_pattern", confidence := 3 / 4 })
      else []
    let s2 :=
      if fp_rate > 3 / 20 ∧ c.context_filters = [] then
        [{ stype := "add_context_filter", confidence := 13 / 20 }]
      else []
    let s3 :=
      if a.precision > 19 / 20 ∧ c.enforcement_action = "warn" then
        [{ stype := "increase_enforcement", confidence := 4 / 5 }]
      else []
    let s4 :=
      if a.precision < 1 / 2 then
        [{ stype := "disable_constraint", confidence := 9 / 10 }]
      else []
    s1 ++ s2 ++ s3 ++ s4
  | _, _ => []

/-! ## Spec-side definitions used to settle claims -/

/-- Modelled from the spec for claim C2: the context-filter admission test
the specification describes, an AND over **every** key of the
`context_filters` mapping ("for every filter key present, the
corresponding value in `context` is a member of the filter's allowed
set"), to be compared with the source's `check_context_filters`. -/
def claim_filters_ok (context : Ctx)
    (filters : List (String × List String)) : Bool :=
  filters.all (fun kv =>
    match ctxGet context kv.1 with
    | some v => kv.2.contains v
    | none => false)

/-- Modelled from the spec for claim C7: the claimed drift formula, with
the recent window being the last `window_size` history entries and the
older window "equal to the recent window (zero decline) when fewer than
2·window_size entries exist", to be compared with `detect_drift`. -/
def drift_claimed (S : Store) (cid : String) (window_size : Nat) : ℚ :=
  match storeLookup S cid with
  | none => 0
  | some a =>
    let h := a.trigger_history
    if h.length < window_size then 0
    else
      let recent := h.drop (h.length - window_size)
      let older :=
        if h.length < 2 * window_size then recent
        else (h.drop (h.length - 2 * window_size)).take window_size
      let decline :=
        max 0 (calculate_precision older - calculate_precision recent)
      let variance :=
        calculate_variance (recent.map (fun r => r.result = "true_positive"))
      min (decline * (7 / 10) + variance * (3 / 10)) 1

/-! ## General lemmas about the embedding -/

theorem triggerUpdate_enabled (now : Nat) (c : Constraint) :
    (triggerUpdate now c).enabled = c.enabled := rfl

theorem triggerUpdate_version (now : Nat) (c : Constraint) :
    (triggerUpdate now c).version = c.version := rfl

theorem triggerUpdate_context_filters (now : Nat) (c : Constraint) :
    (triggerUpdate now c).context_filters = c.context_filters := rfl

theorem triggerUpdate_constraint_id (now : Nat) (c : Constraint) :
    (triggerUpdate now c).constraint_id = c.constraint_id := rfl

theorem eq_triggerUpdate_enabled {now : Nat} {c₁ c₂ : Constraint}
    (h : triggerUpdate now c₁ = triggerUpdate now c₂) :
    c₁.enabled = c₂.enabled := by
  have h2 : (triggerUpdate now c₁).enabled = (triggerUpdate now c₂).enabled :=
    congrArg Constraint.enabled h
  exact h2

theorem eq_triggerUpdate_version {now : Nat} {c₁ c₂ : Constraint}
    (h : triggerUpdate now c₁ = triggerUpdate now c₂) :
    c₁.version = c₂.version := by
  have h2 : (triggerUpdate now c₁).version = (triggerUpdate now c₂).version :=
    congrArg Constraint.version h
  exact h2

theorem eq_triggerUpdate_context_filters {now : Nat} {c₁ c₂ : Constraint}
    (h : triggerUpdate now c₁ = triggerUpdate now c₂) :
    c₁.context_filters = c₂.context_filters := by
  have h2 : (triggerUpdate now c₁).context_filters =
      (triggerUpdate now c₂).context_filters :=
    congrArg Constraint.context_filters h
  exact h2

/-- Position lemma for the store update performed by
`check_constraints_v2`. -/
theorem v2UpdateAux_get? (idxs : List Nat) (accept : Constraint → Bool)
    (now : Nat) :
    ∀ (cs : List Constraint) (start k : Nat),
      (v2UpdateAux idxs accept now start cs).get? k =
        (cs.get? k).map (fun c =>
          if idxs.contains (start + k) ∧ accept c then triggerUpdate now c
          else c)
  | [], _, _ => by simp [v2UpdateAux]
  | c :: rest, start, 0 => by simp [v2UpdateAux]
  | c :: rest, start, k + 1 => by
    have ih := v2UpdateAux_get? idxs accept now rest (start + 1) k
    simp only [v2UpdateAux, List.get?_cons_succ, ih]
    have : start + 1 + k = start + (k + 1) := by omega
    rw [this]

/-- Every element of the triggered list of `check_constraints_v2` is the
updated form of an examined, accepted stored constraint. -/
theorem mem_v2_triggered {E : RegexEngine} {now : Nat} {M : Manager}
    {query : String} {context : Ctx} {t : Constraint}
    (h : t ∈ (check_constraints_v2 E now M query context).1) :
    ∃ i ∈ checkedIndices M query, ∃ c,
      M.constraints.get? i = some c ∧
      v2_eligible E query context c = true ∧ t = triggerUpdate now c := by
  simp only [check_constraints_v2, List.mem_filterMap] at h
  obtain ⟨i, hi, hc⟩ := h
  refine ⟨i, hi, ?_⟩
  cases hg : M.constraints.get? i with
  | none =>
    rw [hg] at hc
    have hc' : (none : Option Constraint) = some t := hc
    exact absurd hc' (by simp)
  | some c =>
    rw [hg] at hc
    have hc' : (if v2_eligible E query context c = true then
        some (triggerUpdate now c) else none) = some t := hc
    by_cases he : v2_eligible E query context c = true
    · rw [if_pos he] at hc'
      exact ⟨c, rfl, he, (Option.some_inj.mp hc').symm⟩
    · rw [if_neg he] at hc'
      exact absurd hc' (by simp)

theorem lastIndexWithId_get? :
    ∀ (cs : List Constraint) (cid : String) (i : Nat),
      lastIndexWithId cs cid = some i →
      ∃ c, cs.get? i = some c ∧ c.constraint_id = cid
  | [], _, _, h => by simp [lastIndexWithId] at h
  | c :: rest, cid, i, h => by
    rw [lastIndexWithId] at h
    cases hr : lastIndexWithId rest cid with
    | some j =>
      rw [hr] at h
      have h' : some (j + 1) = some i := h
      obtain ⟨c', hc', hid⟩ := lastIndexWithId_get? rest cid j hr
      cases Option.some_inj.mp h'
      exact ⟨c', by simpa using hc', hid⟩
    | none =>
      rw [hr] at h
      have h' : (if c.constraint_id ≠ "" ∧ c.constraint_id = cid then
          some 0 else none) = some i := h
      by_cases hcond : c.constraint_id ≠ "" ∧ c.constraint_id = cid
      · rw [if_pos hcond] at h'
        cases Option.some_inj.mp h'
        exact ⟨c, rfl, hcond.2⟩
      · rw [if_neg hcond] at h'
        exact absurd h' (by simp)

/-! ## Claim C1: trigger-logic combination -/

/-- The fixture for the C1 witness: an AND rule over two keywords. -/
def c1AndRule : Constraint :=
  { constraint_id := "c1aaaa01", version := 2,
    trigger_keywords := ["mock", "demo"], trigger_logic := "AND" }

/-- C1: for a version-2 rule, `check_constraints_v2`'s predicate
evaluator combines the ordered pattern/keyword outcome list per
`trigger_logic` — OR: at least one true; AND: all true; NOT: none true —
and an empty predicate list never matches under any logic. -/
theorem C1_trigger_logic_combination (E : RegexEngine) (query : String)
    (c : Constraint) :
    (predicate_list E query c = [] →
      check_patterns_phase2 E query c = false) ∧
    (c.trigger_logic = "OR" →
      (check_patterns_phase2 E query c = true ↔
        true ∈ predicate_list E query c)) ∧
    (c.trigger_logic = "AND" →
      (check_patterns_phase2 E query c = true ↔
        predicate_list E query c ≠ [] ∧
        ∀ b ∈ predicate_list E query c, b = true)) ∧
    (c.trigger_logic = "NOT" →
      (check_patterns_phase2 E query c = true ↔
        predicate_list E query c ≠ [] ∧
        ∀ b ∈ predicate_list E query c, b = false)) := by
  refine ⟨fun h => by simp [check_patterns_phase2, h], ?_, ?_, ?_⟩
  · intro hl
    by_cases h : predicate_list E query c = []
    · simp [check_patterns_phase2, h]
    · simp only [check_patterns_phase2, hl]
      simp only [if_neg h]
      simp only [reduceIte, List.any_eq_true, id_eq]
      constructor
      · rintro ⟨b, hb, hb'⟩
        exact hb' ▸ hb
      · intro hb
        exact ⟨true, hb, rfl⟩
  · intro hl
    by_cases h : predicate_list E query c = []
    · simp [check_patterns_phase2, h]
    · simp only [check_patterns_phase2, hl]
      simp only [if_neg h]
      rw [if_neg (show ¬("AND" : String) = "OR" by decide)]
      simp only [if_true, List.all_eq_true, id_eq]
      exact ⟨fun hb => ⟨h, hb⟩, fun hb => hb.2⟩
  · intro hl
    by_cases h : predicate_list E query c = []
    · simp [check_patterns_phase2, h]
    · simp only [check_patterns_phase2, hl]
      simp only [if_neg h]
      rw [if_neg (show ¬("NOT" : String) = "OR" by decide),
        if_neg (show ¬("NOT" : String) = "AND" by decide)]
      simp only [if_true, Bool.not_eq_true', List.any_eq_false, id_eq,
        Bool.not_eq_true]
      exact ⟨fun hb => ⟨h, hb⟩, fun hb => hb.2⟩

/-- Witness for C1 at a concrete AND rule and query. -/
theorem C1_trigger_logic_combination_witness :
    check_patterns_phase2 noRegexEngine "mock demo data" c1AndRule = true :=
  ((C1_trigger_logic_combination noRegexEngine "mock demo data"
      c1AndRule).2.2.1 rfl).mpr (by decide)

/-! ## Claim C3: invalid-pattern fallback -/

theorem isPrefixOf_map (f : Char → Char) :
    ∀ (l₁ l₂ : List Char), l₁.isPrefixOf l₂ = true →
      (l₁.map f).isPrefixOf (l₂.map f) = true
  | [], _, _ => by simp [List.isPrefixOf]
  | _ :: _, [], h => by simp [List.isPrefixOf] at h
  | a :: as, b :: bs, h => by
    simp only [List.isPrefixOf, List.map, Bool.and_eq_true, beq_iff_eq] at h ⊢
    exact ⟨by rw [h.1], isPrefixOf_map f as bs h.2⟩

/-- Lowercasing both sides preserves a substring containment. -/
theorem strContains_toLower (hay needle : String)
    (h : strContains hay needle = true) :
    strContains (toLowerStr hay) (toLowerStr needle) = true := by
  simp only [strContains, List.any_eq_true, List.mem_range] at h ⊢
  obtain ⟨i, hi, hp⟩ := h
  refine ⟨i, ?_, ?_⟩
  · have hlen : (toLowerStr hay).data.length = hay.data.length := by
      simp [toLowerStr]
    rw [hlen]
    exact hi
  · have h1 : (toLowerStr hay).data.drop i = (hay.data.drop i).map Char.toLower := by
      simp only [toLowerStr]
      exact (List.map_drop Char.toLower hay.data i).symm
    have h2 : (toLowerStr needle).data = needle.data.map Char.toLower := rfl
    rw [h1, h2]
    exact isPrefixOf_map Char.toLower _ _ hp

/-- The fixture rule of the C3 end-to-end scenario: a version-2 rule whose
only pattern is the invalid regex source `"a("`, no keywords. -/
def c3InvalidPatternRule : Constraint :=
  { constraint_id := "c3inv001", version := 2, trigger_patterns := ["a("],
    trigger_logic := "OR" }

/-- C3: evaluating one pattern predicate is total by construction: when
the pattern compiles, the compiled case-insensitive search decides it,
and when compilation fails, a case-insensitive literal substring test of
the raw pattern source decides it; consequently a v2 rule whose only
pattern is the invalid regex `"a("` matches every query containing the
literal substring `"a("`. -/
theorem C3_invalid_pattern_fallback :
    (∀ (E : RegexEngine) (query pattern : String) (search : String → Bool),
      E.compile pattern = some search →
      check_regex_pattern E query pattern = search query) ∧
    (∀ (E : RegexEngine) (query pattern : String),
      E.compile pattern = none →
      check_regex_pattern E query pattern =
        strContains (toLowerStr query) (toLowerStr pattern)) ∧
    (∀ (E : RegexEngine) (query : String),
      E.compile "a(" = none →
      strContains query "a(" = true →
      check_patterns_phase2 E query c3InvalidPatternRule = true) := by
  refine ⟨?_, ?_, ?_⟩
  · intro E query pattern search hc
    simp [check_regex_pattern, hc]
  · intro E query pattern hc
    simp [check_regex_pattern, hc]
  · intro E query hc hq
    have hlow : toLowerStr "a(" = "a(" := by decide
    have h1 : check_regex_pattern E query "a(" = true := by
      simp only [check_regex_pattern, hc, hlow]
      exact strContains_toLower query "a(" hq
    have h2 : predicate_list E query c3InvalidPatternRule =
        [check_regex_pattern E query "a("] := rfl
    have h3 : predicate_list E query c3InvalidPatternRule = [true] := by
      rw [h2, h1]
    simp only [check_patterns_phase2, h3]
    decide

/-- Witness for C3: the scenario-4 query evaluated on an engine whose
compilation of `"a("` fails. -/
theorem C3_invalid_pattern_fallback_witness :
    check_patterns_phase2 noRegexEngine "wrap in a(x) today"
      c3InvalidPatternRule = true :=
  C3_invalid_pattern_fallback.2.2 noRegexEngine "wrap in a(x) today" rfl
    (by decide)

/-! ## Claim C4: disabled rules never match -/

/-- C4: a rule with `enabled = false` is never included in the result of
either matching entry point, and its `triggered_count` is never
incremented (its stored entry is returned unchanged). -/
theorem C4_disabled_rules_never_match :
    (∀ (now : Nat) (cs : List Constraint) (query : String) (i : Nat)
      (c : Constraint),
      cs.get? i = some c → c.enabled = false →
      (check_constraints now cs query).2.get? i = some c ∧
      ∀ t ∈ (check_constraints now cs query).1,
        t ≠ c ∧ t ≠ triggerUpdate now c) ∧
    (∀ (E : RegexEngine) (now : Nat) (M : Manager) (query : String)
      (context : Ctx) (i : Nat) (c : Constraint),
      M.constraints.get? i = some c → c.enabled = false →
      (check_constraints_v2 E now M query context).2.get? i = some c ∧
      ∀ t ∈ (check_constraints_v2 E now M query context).1,
        t ≠ c ∧ t ≠ triggerUpdate now c) := by
  constructor
  · intro now cs query i c hg he
    have hhit : legacy_hit (toLowerStr query) c = false := by
      simp [legacy_hit, he]
    constructor
    · show (cs.map (fun c => if legacy_hit (toLowerStr query) c then
        triggerUpdate now c else c)).get? i = some c
      rw [List.get?_map, hg]
      simp [hhit]
    · intro t ht
      have ht' : t ∈ (cs.filter
          (legacy_hit (toLowerStr query))).map (triggerUpdate now) := ht
      simp only [List.mem_map, List.mem_filter] at ht'
      obtain ⟨c', ⟨_, hc'hit⟩, rfl⟩ := ht'
      have hen : c'.enabled = true := by
        simp only [legacy_hit, Bool.and_eq_true] at hc'hit
        exact hc'hit.1
      constructor
      · intro hcontra
        have h2 := congrArg Constraint.enabled hcontra
        rw [triggerUpdate_enabled, hen, he] at h2
        exact Bool.noConfusion h2
      · intro hcontra
        have h2 := eq_triggerUpdate_enabled hcontra
        rw [hen, he] at h2
        exact Bool.noConfusion h2
  · intro E now M query context i c hg he
    have helig : v2_eligible E query context c = false := by
      simp [v2_eligible, he]
    constructor
    · show (v2UpdateAux (checkedIndices M query)
        (v2_eligible E query context) now 0 M.constraints).get? i = some c
      rw [v2UpdateAux_get?, hg]
      simp [helig]
    · intro t ht
      obtain ⟨j, hj, c', hgc', helig', rfl⟩ := mem_v2_triggered ht
      have hen : c'.enabled = true := by
        simp only [v2_eligible, Bool.and_eq_true] at helig'
        exact helig'.1.1
      constructor
      · intro hcontra
        have h2 := congrArg Constraint.enabled hcontra
        rw [triggerUpdate_enabled, hen, he] at h2
        exact Bool.noConfusion h2
      · intro hcontra
        have h2 := eq_triggerUpdate_enabled hcontra
        rw [hen, he] at h2
        exact Bool.noConfusion h2

/-- The fixture for the C4 witness: a disabled rule whose keyword occurs
verbatim in the witness query. -/
def c4DisabledRule : Constraint :=
  { constraint_id := "c4dis001", trigger_keywords := ["mock"],
    enabled := false }

/-- Witness for C4: the disabled fixture rule is not triggered by the
legacy entry point even though its keyword matches. -/
theorem C4_disabled_rules_never_match_witness :
    (check_constraints 0 [c4DisabledRule] "use mock").2.get? 0 =
      some c4DisabledRule ∧
    ∀ t ∈ (check_constraints 0 [c4DisabledRule] "use mock").1,
      t ≠ c4DisabledRule ∧ t ≠ triggerUpdate 0 c4DisabledRule :=
  C4_disabled_rules_never_match.1 0 [c4DisabledRule] "use mock" 0
    c4DisabledRule (by decide) (by decide)

/-! ## Claim C2: context filters -/

/-- Admission test for one hard-coded filter key, phrased the way the
source evaluates it. -/
theorem filter_key_ok_iff (context : Ctx)
    (filters : List (String × List String)) (key : String) :
    ((match filtersGet filters key with
      | none => true
      | some allowed =>
        match ctxGet context key with
        | none => false
        | some v => allowed.contains v) = true) ↔
    ∀ allowed, filtersGet filters key = some allowed →
      ∃ v, ctxGet context key = some v ∧ v ∈ allowed := by
  cases hf : filtersGet filters key with
  | none => simp
  | some allowed =>
    cases hc : ctxGet context key with
    | none =>
      simp only [Option.some.injEq]
      constructor
      · intro h
        exact absurd h (by simp)
      · intro h
        obtain ⟨v, hv, _⟩ := h allowed rfl
        exact absurd hv (by simp)
    | some v =>
      simp only [Option.some.injEq]
      constructor
      · intro h aw haw
        exact ⟨v, rfl, haw ▸ List.elem_iff.mp h⟩
      · intro h
        obtain ⟨v', hv', hmem⟩ := h allowed rfl
        cases hv'
        exact List.elem_iff.mpr hmem

/-- The fixture rule for the C2 counterexample: a version-2 rule with a
non-empty `context_filters` mapping whose only key is neither
`"query_type"` nor `"vibe_mode"`. -/
def c2Rule : Constraint :=
  { constraint_id := "c2ctx001", version := 2, trigger_keywords := ["mock"],
    context_filters := [("stage", ["prod"])] }

/-- The manager state holding only the C2 fixture rule. -/
def c2Manager : Manager := Manager.fromConstraints [c2Rule]

/-- Counterexample to C2 as stated: the context `{}` fails the claimed
all-keys filter test for `{"stage": ["prod"]}` (the value for `"stage"`
is absent), yet `check_constraints_v2` does **not** skip the rule — it
returns it and increments its counter — because the source only consults
the keys `"query_type"` and `"vibe_mode"`. -/
theorem C2_context_filters_counterexample :
    claim_filters_ok [] c2Rule.context_filters = false ∧
    (check_constraints_v2 noRegexEngine 0 c2Manager "use mock" []).1 =
      [triggerUpdate 0 c2Rule] ∧
    (check_constraints_v2 noRegexEngine 0 c2Manager "use mock" []).2 =
      [triggerUpdate 0 c2Rule] := by
  refine ⟨by decide, by decide, by decide⟩

/-- C2 (amended): for a version-2 rule, `check_constraints_v2` skips the
rule (no match, no counter update) unless for each of the two filter keys
`"query_type"` and `"vibe_mode"` that is present in `context_filters`,
the context's value for that key is a member of that key's allowed set;
filter entries under any other key are ignored. -/
theorem C2_context_filters_amended :
    (∀ (context : Ctx) (filters : List (String × List String)),
      check_context_filters context filters = true ↔
        ((∀ allowed, filtersGet filters "query_type" = some allowed →
            ∃ v, ctxGet context "query_type" = some v ∧ v ∈ allowed) ∧
         (∀ allowed, filtersGet filters "vibe_mode" = some allowed →
            ∃ v, ctxGet context "vibe_mode" = some v ∧ v ∈ allowed))) ∧
    (∀ (E : RegexEngine) (now : Nat) (M : Manager) (query : String)
      (context : Ctx) (i : Nat) (c : Constraint),
      M.constraints.get? i = some c → c.version = 2 →
      check_context_filters context c.context_filters = false →
      (check_constraints_v2 E now M query context).2.get? i = some c ∧
      ∀ t ∈ (check_constraints_v2 E now M query context).1,
        t ≠ c ∧ t ≠ triggerUpdate now c) := by
  constructor
  · intro context filters
    by_cases hf : filters = []
    · subst hf
      simp [check_context_filters, filtersGet]
    · rw [check_context_filters, if_neg hf, Bool.and_eq_true,
        filter_key_ok_iff, filter_key_ok_iff]
  · intro E now M query context i c hg hver hfil
    have helig : v2_eligible E query context c = false := by
      simp [v2_eligible, hver, hfil]
    constructor
    · show (v2UpdateAux (checkedIndices M query)
        (v2_eligible E query context) now 0 M.constraints).get? i = some c
      rw [v2UpdateAux_get?, hg]
      simp [helig]
    · intro t ht
      obtain ⟨j, hj, c', hgc', helig', rfl⟩ := mem_v2_triggered ht
      have hkey : (c'.version != 2 ||
          check_context_filters context c'.context_filters) = true := by
        simp only [v2_eligible, Bool.and_eq_true] at helig'
        exact helig'.1.2
      constructor
      · intro hcontra
        have hv := congrArg Constraint.version hcontra
        rw [triggerUpdate_version] at hv
        have hcf := congrArg Constraint.context_filters hcontra
        rw [triggerUpdate_context_filters] at hcf
        rw [hv, hcf, hver, hfil] at hkey
        exact absurd hkey (by decide)
      · intro hcontra
        have hv := eq_triggerUpdate_version hcontra
        have hcf := eq_triggerUpdate_context_filters hcontra
        rw [hv, hcf, hver, hfil] at hkey
        exact absurd hkey (by decide)

/-- The fixture rule for the amended-C2 witness: the spec's own example,
a `query_type` filter allowing only `"generate"`. -/
def c2WitnessRule : Constraint :=
  { constraint_id := "c2wit001", version := 2, trigger_keywords := ["mock"],
    context_filters := [("query_type", ["generate"])] }

/-- The manager state holding only the amended-C2 witness rule. -/
def c2WitnessManager : Manager := Manager.fromConstraints [c2WitnessRule]

/-- Witness for the amended C2: a v2 rule whose `query_type` filter
rejects the context `{"query_type": "chat"}` is skipped even though its
keyword matches the query. -/
theorem C2_context_filters_amended_witness :
    (check_constraints_v2 noRegexEngine 0 c2WitnessManager "use mock"
        [("query_type", "chat")]).2.get? 0 = some c2WitnessRule ∧
    ∀ t ∈ (check_constraints_v2 noRegexEngine 0 c2WitnessManager "use mock"
        [("query_type", "chat")]).1,
      t ≠ c2WitnessRule ∧ t ≠ triggerUpdate 0 c2WitnessRule :=
  C2_context_filters_amended.2 noRegexEngine 0 c2WitnessManager "use mock"
    [("query_type", "chat")] 0 c2WitnessRule (by decide) (by decide)
    (by decide)

/-! ## Claim C5: indexed candidate selection -/

theorem mem_addIds (x : String) :
    ∀ (ids acc : List String), x ∈ addIds acc ids ↔ x ∈ acc ∨ x ∈ ids
  | [], acc => by simp [addIds]
  | i :: ids, acc => by
    have hstep : addIds acc (i :: ids) =
        addIds (if acc.contains i then acc else acc ++ [i]) ids := rfl
    rw [hstep, mem_addIds x ids]
    by_cases hi : i ∈ acc
    · rw [if_pos (by simpa [List.elem_iff] using hi)]
      simp only [List.mem_cons]
      constructor
      · rintro (h | h)
        · exact Or.inl h
        · exact Or.inr (Or.inr h)
      · rintro (h | rfl | h)
        · exact Or.inl h
        · exact Or.inl hi
        · exact Or.inr h
    · rw [if_neg (by simpa [List.elem_iff] using hi)]
      simp only [List.mem_append, List.mem_singleton, List.mem_cons]
      tauto

theorem mem_candidate_foldl (idx : KIndex) (x : String) :
    ∀ (ws acc : List String),
      (x ∈ ws.foldl (fun acc w =>
        match indexLookup idx w with
        | some ids => addIds acc ids
        | none => acc) acc) ↔
      x ∈ acc ∨ ∃ w ∈ ws, ∃ ids, indexLookup idx w = some ids ∧ x ∈ ids
  | [], acc => by simp
  | w :: ws, acc => by
    rw [List.foldl_cons, mem_candidate_foldl idx x ws]
    cases hl : indexLookup idx w with
    | none =>
      simp only [List.mem_cons]
      constructor
      · rintro (h | h)
        · exact Or.inl h
        · obtain ⟨w', hw', ids, hids, hx⟩ := h
          exact Or.inr ⟨w', Or.inr hw', ids, hids, hx⟩
      · rintro (h | ⟨w', hw', ids, hids, hx⟩)
        · exact Or.inl h
        · rcases hw' with rfl | hw'
          · rw [hl] at hids
            exact absurd hids (by simp)
          · exact Or.inr ⟨w', hw', ids, hids, hx⟩
    | some ids0 =>
      rw [mem_addIds]
      simp only [List.mem_cons]
      constructor
      · rintro ((h | h) | h)
        · exact Or.inl h
        · exact Or.inr ⟨w, Or.inl rfl, ids0, hl, h⟩
        · obtain ⟨w', hw', ids, hids, hx⟩ := h
          exact Or.inr ⟨w', Or.inr hw', ids, hids, hx⟩
      · rintro (h | ⟨w', hw', ids, hids, hx⟩)
        · exact Or.inl (Or.inl h)
        · rcases hw' with rfl | hw'
          · rw [hl] at hids
            cases Option.some_inj.mp hids
            exact Or.inl (Or.inr hx)
          · exact Or.inr ⟨w', hw', ids, hids, hx⟩

theorem filterMap_range_filter (accept : Constraint → Bool) (now : Nat) :
    ∀ (cs : List Constraint),
      ((List.range cs.length).filterMap (fun i =>
        match cs.get? i with
        | some c => if accept c then some (triggerUpdate now c) else none
        | none => none)) =
      (cs.filter accept).map (triggerUpdate now)
  | [] => by simp
  | c :: cs => by
    rw [List.length_cons, List.range_succ_eq_map, List.filterMap_cons,
      List.filterMap_map]
    have htail : ((fun i =>
        match (c :: cs).get? i with
        | some c => if accept c then some (triggerUpdate now c) else none
        | none => none) ∘ Nat.succ) =
        (fun i =>
        match cs.get? i with
        | some c => if accept c then some (triggerUpdate now c) else none
        | none => none) := rfl
    rw [htail, filterMap_range_filter accept now cs]
    by_cases ha : accept c = true
    · simp [ha]
    · simp [ha, Bool.of_not_eq_true ha]

/-- The fixture rule for C5's keyword-index round trip. -/
def c5MockRule : Constraint :=
  { constraint_id := "c5mock01", version := 2, trigger_keywords := ["mock"] }

/-- The fixture rule for the C5 witness: its only pattern yields no
indexable literal (the extracted keyword is shorter than 3 characters),
so only the fallback full scan can reach it. -/
def c5FallbackRule : Constraint :=
  { constraint_id := "c5fall01", version := 2, trigger_patterns := ["zz.*"] }

/-- C5: candidate selection unions the keyword-index entries of the
query's tokens; a non-empty union restricts evaluation to those
candidates, an empty union falls back to scanning every stored rule; and
the concrete round trip of the spec (rule with keyword `"mock"`, query
`"Create mock data"`) selects the rule as a candidate. -/
theorem C5_candidate_selection :
    (∀ (idx : KIndex) (query cid : String),
      cid ∈ get_candidate_constraint_ids idx query ↔
        ∃ w ∈ tokenize query, ∃ ids,
          indexLookup idx w = some ids ∧ cid ∈ ids) ∧
    (∀ (E : RegexEngine) (now : Nat) (M : Manager) (query : String)
      (context : Ctx),
      get_candidate_constraint_ids M.keyword_index query = [] →
      (check_constraints_v2 E now M query context).1 =
        (M.constraints.filter (v2_eligible E query context)).map
          (triggerUpdate now)) ∧
    (∀ (E : RegexEngine) (now : Nat) (M : Manager) (query : String)
      (context : Ctx),
      get_candidate_constraint_ids M.keyword_index query ≠ [] →
      ∀ t ∈ (check_constraints_v2 E now M query context).1,
        t.constraint_id ∈
          get_candidate_constraint_ids M.keyword_index query) ∧
    c5MockRule.constraint_id ∈
      get_candidate_constraint_ids (rebuild_keyword_index [c5MockRule])
        "Create mock data" := by
  refine ⟨?_, ?_, ?_, by decide⟩
  · intro idx query cid
    rw [get_candidate_constraint_ids, mem_candidate_foldl]
    simp
  · intro E now M query context hempty
    show ((checkedIndices M query).filterMap (fun i =>
      match M.constraints.get? i with
      | some c => if v2_eligible E query context c then
          some (triggerUpdate now c) else none
      | none => none)) = _
    have hidx : checkedIndices M query = List.range M.constraints.length := by
      simp [checkedIndices, hempty]
    rw [hidx]
    exact filterMap_range_filter _ now M.constraints
  · intro E now M query context hne t ht
    obtain ⟨i, hi, c', hgc', _, rfl⟩ := mem_v2_triggered ht
    simp only [checkedIndices, if_neg hne, List.mem_filterMap] at hi
    obtain ⟨cid, hcid, hlast⟩ := hi
    obtain ⟨c'', hg'', hid''⟩ := lastIndexWithId_get? _ _ _ hlast
    rw [hgc'] at hg''
    cases Option.some_inj.mp hg''
    rw [triggerUpdate_constraint_id, hid'']
    exact hcid

/-- Witness for C5: a manager whose index is empty (the only rule's
pattern yields no indexable literal) falls back to the full scan. -/
theorem C5_candidate_selection_witness :
    (check_constraints_v2 noRegexEngine 0
        (Manager.fromConstraints [c5FallbackRule]) "zzz zzz" []).1 =
      ((Manager.fromConstraints [c5FallbackRule]).constraints.filter
        (v2_eligible noRegexEngine "zzz zzz" [])).map (triggerUpdate 0) :=
  C5_candidate_selection.2.1 noRegexEngine 0
    (Manager.fromConstraints [c5FallbackRule]) "zzz zzz" [] (by decide)

/-! ## Claim C10: the indexed path is not a full scan -/

/-- A rule whose keyword `"xyz"` occurs in the C10 query, populating the
candidate union. -/
def c10RuleA : Constraint :=
  { constraint_id := "c10aaa01", version := 2, trigger_keywords := ["xyz"] }

/-- A NOT-logic rule whose keyword `"foo"` does not occur in the C10
query: its predicate logic holds on the query, but no query token finds
it in the index. -/
def c10RuleB : Constraint :=
  { constraint_id := "c10bbb02", version := 2, trigger_keywords := ["foo"],
    trigger_logic := "NOT" }

/-- The manager state for C10. -/
def c10Manager : Manager := Manager.fromConstraints [c10RuleA, c10RuleB]

/-- C10: the indexed matching path is not extensionally equivalent to a
full scan: on the query `"xyz please"`, rule B is enabled, its context
filters pass, and its NOT logic holds (no keyword matches), yet the
candidate union is non-empty (populated by rule A's token), rule B is
absent from the union, and `check_constraints_v2` neither returns rule B
nor updates its stored entry. -/
theorem C10_index_not_equivalent_to_full_scan :
    c10RuleB.enabled = true ∧
    check_patterns_phase2 noRegexEngine "xyz please" c10RuleB = true ∧
    check_context_filters [] c10RuleB.context_filters = true ∧
    get_candidate_constraint_ids c10Manager.keyword_index "xyz please" ≠ [] ∧
    c10RuleB.constraint_id ∉
      get_candidate_constraint_ids c10Manager.keyword_index "xyz please" ∧
    (∀ t ∈ (check_constraints_v2 noRegexEngine 0 c10Manager "xyz please"
        []).1, t.constraint_id ≠ c10RuleB.constraint_id) ∧
    (check_constraints_v2 noRegexEngine 0 c10Manager "xyz please"
        []).2.get? 1 = some c10RuleB := by
  decide

/-! ## Claim C6: the precision invariant -/

theorem storeLookup_storeUpdate (cid cid' : String)
    (a : ConstraintAnalytics) :
    ∀ S : Store, storeLookup (storeUpdate S cid a) cid' =
      if cid' = cid then some a else storeLookup S cid'
  | [] => by
    simp only [storeUpdate, storeLookup]
    by_cases h : cid = cid'
    · subst h
      simp
    · rw [if_neg h, if_neg (fun hh => h hh.symm)]
  | (k, v) :: rest => by
    simp only [storeUpdate]
    by_cases hk : k = cid
    · subst hk
      simp only [if_pos rfl, storeLookup]
      by_cases h : k = cid'
      · subst h
        simp
      · rw [if_neg h, if_neg (fun hh => h hh.symm), if_neg h]
    · rw [if_neg hk]
      simp only [storeLookup]
      by_cases h1 : k = cid'
      · subst h1
        rw [if_neg hk]
        simp
      · rw [if_neg h1, storeLookup_storeUpdate cid cid' a rest]
        by_cases h2 : cid' = cid
        · rw [if_pos h2, if_pos h2]
        · rw [if_neg h2, if_neg h2, if_neg h1]

/-- The precision invariant claimed by the spec, as a predicate on
stores. -/
def precisionInvariant (S : Store) : Prop :=
  ∀ cid a, storeLookup S cid = some a →
    a.precision =
      (if a.true_positives + a.false_positives = 0 then 0
       else (a.true_positives : ℚ) /
         ((a.true_positives : ℚ) + (a.false_positives : ℚ)))

theorem precision_formula (tp fp : Nat) :
    (if tp + fp > 0 then (tp : ℚ) / (((tp + fp : Nat) : Int) : ℚ) else 0) =
      (if tp + fp = 0 then 0
       else (tp : ℚ) / ((tp : ℚ) + (fp : ℚ))) := by
  by_cases hz : tp + fp = 0
  · rw [if_neg (by omega), if_pos hz]
  · rw [if_pos (by omega), if_neg hz]
    push_cast
    rfl

theorem recalculate_metrics_lookup_ne (now : Nat) (T : Store)
    (cid cid' : String) (hne : cid' ≠ cid) :
    storeLookup (recalculate_metrics now T cid) cid' = storeLookup T cid' := by
  unfold recalculate_metrics
  cases h : storeLookup T cid with
  | none => rfl
  | some a =>
    rw [storeLookup_storeUpdate, if_neg hne, storeLookup_storeUpdate,
      if_neg hne]

theorem recalculate_metrics_lookup_self (now : Nat) (T : Store)
    (cid : String) (a : ConstraintAnalytics)
    (h : storeLookup T cid = some a) (b : ConstraintAnalytics)
    (hb : storeLookup (recalculate_metrics now T cid) cid = some b) :
    b.true_positives = a.true_positives ∧
    b.false_positives = a.false_positives ∧
    b.precision =
      (if a.true_positives + a.false_positives = 0 then 0
       else (a.true_positives : ℚ) /
         ((a.true_positives : ℚ) + (a.false_positives : ℚ))) := by
  unfold recalculate_metrics at hb
  simp only [h] at hb
  rw [storeLookup_storeUpdate, if_pos rfl] at hb
  cases Option.some_inj.mp hb
  refine ⟨rfl, rfl, ?_⟩
  show (if a.true_positives + a.false_positives > 0 then
      (a.true_positives : ℚ) / ((a.true_positives + a.false_positives : Nat) : ℚ)
    else 0) = _
  by_cases hz : a.true_positives + a.false_positives = 0
  · rw [if_neg (by omega), if_pos hz]
  · rw [if_pos (by omega), if_neg hz]
    push_cast
    rfl

theorem record_trigger_precisionInvariant (now : Nat) (S : Store)
    (cid query feedback : String) (hS : precisionInvariant S) :
    precisionInvariant (record_trigger now S cid query feedback) := by
  intro cid' a' ha'
  have hform : ∃ X, record_trigger now S cid query feedback =
      recalculate_metrics now (storeUpdate S cid X) cid := ⟨_, rfl⟩
  obtain ⟨X, hX⟩ := hform
  rw [hX] at ha'
  by_cases h : cid' = cid
  · subst h
    have hlook : storeLookup (storeUpdate S cid' X) cid' = some X := by
      rw [storeLookup_storeUpdate, if_pos rfl]
    obtain ⟨htp, hfp, hprec⟩ :=
      recalculate_metrics_lookup_self now (storeUpdate S cid' X) cid' X hlook
        a' ha'
    rw [hprec, htp, hfp]
  · rw [recalculate_metrics_lookup_ne now _ cid cid' h,
      storeLookup_storeUpdate, if_neg h] at ha'
    exact hS cid' a' ha'

theorem applyEvents_precisionInvariant :
    ∀ (events : List FeedbackEvent) (S : Store), precisionInvariant S →
      precisionInvariant (applyEvents events S)
  | [], _, hS => hS
  | e :: es, S, hS =>
    applyEvents_precisionInvariant es _
      (record_trigger_precisionInvariant e.now S e.cid e.query e.feedback hS)

/-- C6: after any sequence of `record_trigger` calls starting from the
empty analytics store, every stored record's `precision` field equals
`true_positives / (true_positives + false_positives)` when that
denominator is positive and exactly `0` when it is zero: the derived
field is recomputed after every recorded outcome. -/
theorem C6_precision_invariant (events : List FeedbackEvent) (cid : String)
    (a : ConstraintAnalytics)
    (h : storeLookup (applyEvents events []) cid = some a) :
    a.precision =
      (if a.true_positives + a.false_positives = 0 then 0
       else (a.true_positives : ℚ) /
         ((a.true_positives : ℚ) + (a.false_positives : ℚ))) := by
  have base : precisionInvariant ([] : Store) := by
    intro cid a h
    exact absurd h (by simp [storeLookup])
  exact applyEvents_precisionInvariant events [] base cid a h

/-- The analytics record produced by one true-positive feedback event on
a fresh rule (used by the C6 witness). -/
def c6WitnessRecord : ConstraintAnalytics :=
  { constraint_id := "c6rule01", total_triggers := 1, false_positives := 0,
    true_positives := 1, unknown := 0, auto_disabled_count := 0,
    last_analyzed := some 0, precision := 1, effectiveness_score := 1 / 100,
    drift_score := 0, trigger_history := [⟨0, "q", "true_positive"⟩] }

/-- Witness for C6 at a one-event feedback sequence. -/
theorem C6_precision_invariant_witness :
    c6WitnessRecord.precision =
      (if c6WitnessRecord.true_positives + c6WitnessRecord.false_positives = 0
       then 0
       else (c6WitnessRecord.true_positives : ℚ) /
         ((c6WitnessRecord.true_positives : ℚ) +
          (c6WitnessRecord.false_positives : ℚ))) :=
  C6_precision_invariant [⟨0, "c6rule01", "q", "true_positive"⟩] "c6rule01"
    c6WitnessRecord (by with_unfolding_all rfl)

/-! ## Claim C7: drift formula -/

/-- The fixture store for the C7 counterexample: one rule with two
history entries (one true positive, one false positive). -/
def c7Store : Store :=
  applyEvents [⟨0, "c7rule01", "q", "true_positive"⟩,
    ⟨1, "c7rule01", "q", "false_positive"⟩] []

/-- Counterexample to C7 as stated: at `window_size = 0` the claimed
formula yields `0` (the recent window — the last 0 entries — is empty),
but `detect_drift` returns `3/40`, because the Python slice
`history[-0:]` is the whole history, whose variance is positive. -/
theorem C7_drift_counterexample :
    detect_drift c7Store "c7rule01" 0 = 3 / 40 ∧
    drift_claimed c7Store "c7rule01" 0 = 0 := by
  constructor
  · with_unfolding_all rfl
  · with_unfolding_all rfl

/-- C7 (amended): for every `window_size ≥ 1`, `detect_drift` returns
exactly the claimed value: `0` when the rule has no record or fewer than
`window_size` history entries, else `min(1, 0.7·decline + 0.3·variance)`
with the older window equal to the recent window (zero decline) when
fewer than `2·window_size` entries exist and the variance taken over the
recent window's 0/1 true-positive indicators. -/
theorem C7_drift_amended (S : Store) (cid : String) (window_size : Nat)
    (hw : 1 ≤ window_size) :
    detect_drift S cid window_size = drift_claimed S cid window_size := by
  simp only [detect_drift, drift_claimed]
  cases storeLookup S cid with
  | none => rfl
  | some a =>
    dsimp only
    by_cases hlen : a.trigger_history.length < window_size
    · rw [if_pos hlen, if_pos hlen]
    · rw [if_neg hlen, if_neg hlen]
      have hw0 : window_size ≠ 0 := by omega
      rw [pySliceLast, if_neg hw0]
      by_cases h2 : a.trigger_history.length < 2 * window_size
      · rw [if_neg (show ¬a.trigger_history.length ≥ 2 * window_size by omega),
          if_pos h2, if_pos rfl]
      · have hge : a.trigger_history.length ≥ 2 * window_size := by omega
        rw [if_pos hge, if_neg h2]
        have holder : pySliceOlder a.trigger_history window_size ≠ [] := by
          have hl : (pySliceOlder a.trigger_history window_size).length =
              window_size := by
            rw [pySliceOlder, List.length_take, List.length_drop]
            omega
          intro hnil
          rw [hnil] at hl
          simp only [List.length_nil] at hl
          omega
        rw [if_neg holder, pySliceOlder]

/-- Witness for the amended C7 at the default window size. -/
theorem C7_drift_amended_witness :
    detect_drift c7Store "c7rule01" 10 = drift_claimed c7Store "c7rule01" 10 :=
  C7_drift_amended c7Store "c7rule01" 10 (by decide)

/-! ## Claim C8: the 3-false-7-true scenario -/

/-- The feedback sequence of end-to-end scenario 3: 3 false positives
followed by 7 true positives on one rule. -/
def c8Events : List FeedbackEvent :=
  [⟨0, "c8rule01", "q", "false_positive"⟩,
   ⟨1, "c8rule01", "q", "false_positive"⟩,
   ⟨2, "c8rule01", "q", "false_positive"⟩,
   ⟨3, "c8rule01", "q", "true_positive"⟩,
   ⟨4, "c8rule01", "q", "true_positive"⟩,
   ⟨5, "c8rule01", "q", "true_positive"⟩,
   ⟨6, "c8rule01", "q", "true_positive"⟩,
   ⟨7, "c8rule01", "q", "true_positive"⟩,
   ⟨8, "c8rule01", "q", "true_positive"⟩,
   ⟨9, "c8rule01", "q", "true_positive"⟩]

/-- The analytics store after recording the scenario-3 sequence. -/
def c8Store : Store := applyEvents c8Events []

/-- Counterexample to C8 as stated: after the scenario the precision is
`0.7` and the drift score is below `0.5`, but the health status is not
`"acceptable"`: by the spec's own thresholds `0.7 < 0.75`, so the status
falls through to `"needs_review"`. -/
theorem C8_health_counterexample :
    ((storeLookup c8Store "c8rule01").getD
      (defaultAnalytics "c8rule01")).precision = 7 / 10 ∧
    ((storeLookup c8Store "c8rule01").getD
      (defaultAnalytics "c8rule01")).drift_score < 1 / 2 ∧
    (analyze_constraint_health c8Store "c8rule01").status ≠ "acceptable" := by
  refine ⟨by with_unfolding_all rfl, ?_, ?_⟩
  · have h : ((storeLookup c8Store "c8rule01").getD
        (defaultAnalytics "c8rule01")).drift_score = 63 / 1000 := by
      with_unfolding_all rfl
    rw [h]
    norm_num
  · have h : (analyze_constraint_health c8Store "c8rule01").status =
        "needs_review" := by
      with_unfolding_all rfl
    rw [h]
    decide

/-- C8 (amended): after 3 false positives then 7 true positives the
rule's precision is `0.7` and its drift score (`0.063`) is below `0.5`,
and `analyze_constraint_health` reports status `"needs_review"`. -/
theorem C8_health_amended :
    ((storeLookup c8Store "c8rule01").getD
      (defaultAnalytics "c8rule01")).precision = 7 / 10 ∧
    ((storeLookup c8Store "c8rule01").getD
      (defaultAnalytics "c8rule01")).drift_score = 63 / 1000 ∧
    ((storeLookup c8Store "c8rule01").getD
      (defaultAnalytics "c8rule01")).drift_score < 1 / 2 ∧
    (analyze_constraint_health c8Store "c8rule01").status = "needs_review" := by
  refine ⟨by with_unfolding_all rfl, by with_unfolding_all rfl, ?_,
    by with_unfolding_all rfl⟩
  have h : ((storeLookup c8Store "c8rule01").getD
      (defaultAnalytics "c8rule01")).drift_score = 63 / 1000 := by
    with_unfolding_all rfl
  rw [h]
  norm_num

/-! ## Claim C9: improvement suggestions -/

theorem mem_ite_nil {α : Type} {P : Prop} [Decidable P] {l : List α} {s : α}
    (h : s ∈ if P then l else []) : P ∧ s ∈ l := by
  by_cases hp : P
  · rw [if_pos hp] at h
    exact ⟨hp, h⟩
  · rw [if_neg hp] at h
    exact absurd h (by simp)

theorem mem_ite_singleton {α : Type} {P : Prop} [Decidable P] {x s : α}
    (h : s ∈ if P then [x] else []) : s = x :=
  List.mem_singleton.mp (mem_ite_nil h).2

/-- C9: with an analytics record and a stored rule, a `narrow_pattern`
suggestion with confidence `0.75` is emitted exactly when the
false-positive rate exceeds `0.20` and some trigger pattern contains the
broad wildcard `".*"`, and a `disable_constraint` suggestion with
confidence `0.90` is emitted exactly when the stored precision is below
`0.50`; the two kinds are generated independently. -/
theorem C9_suggestions (S : Store) (constraints : List Constraint)
    (cid : String) (a : ConstraintAnalytics) (c : Constraint)
    (ha : storeLookup S cid = some a)
    (hc : get_constraint constraints cid = some c) :
    ((∃ s ∈ suggest_improvements S constraints cid,
        s.stype = "narrow_pattern" ∧ s.confidence = 3 / 4) ↔
      (suggestFpRate a > 1 / 5 ∧
        ∃ p ∈ c.trigger_patterns, strContains p ".*" = true)) ∧
    ((∃ s ∈ suggest_improvements S constraints cid,
        s.stype = "disable_constraint" ∧ s.confidence = 9 / 10) ↔
      a.precision < 1 / 2) := by
  have hunf : suggest_improvements S constraints cid =
      (if suggestFpRate a > 1 / 5 ∧ c.trigger_patterns ≠ [] then
        (c.trigger_patterns.filter (fun p => strContains p ".*")).map
          (fun _ => { stype := "narrow_pattern", confidence := 3 / 4 })
      else []) ++
      (if suggestFpRate a > 3 / 20 ∧ c.context_filters = [] then
        [{ stype := "add_context_filter", confidence := 13 / 20 }] else []) ++
      (if a.precision > 19 / 20 ∧ c.enforcement_action = "warn" then
        [{ stype := "increase_enforcement", confidence := 4 / 5 }] else []) ++
      (if a.precision < 1 / 2 then
        [{ stype := "disable_constraint", confidence := 9 / 10 }] else []) := by
    simp only [suggest_improvements, ha, hc]
  constructor
  · constructor
    · rintro ⟨s, hs, hst, _⟩
      rw [hunf] at hs
      simp only [List.mem_append] at hs
      rcases hs with ((hA | hB) | hC) | hD
      · obtain ⟨h1, hmem⟩ := mem_ite_nil hA
        simp only [List.mem_map] at hmem
        obtain ⟨p, hp, _⟩ := hmem
        have hp' := List.mem_filter.mp hp
        exact ⟨h1.1, p, hp'.1, hp'.2⟩
      · have hEq := mem_ite_singleton hB
        rw [hEq] at hst
        exact absurd hst (by decide)
      · have hEq := mem_ite_singleton hC
        rw [hEq] at hst
        exact absurd hst (by decide)
      · have hEq := mem_ite_singleton hD
        rw [hEq] at hst
        exact absurd hst (by decide)
    · rintro ⟨hfp, p, hp, hq⟩
      refine ⟨{ stype := "narrow_pattern", confidence := 3 / 4 }, ?_, rfl, rfl⟩
      rw [hunf]
      simp only [List.mem_append]
      left
      left
      left
      rw [if_pos ⟨hfp, by intro hnil; rw [hnil] at hp; exact absurd hp (by simp)⟩]
      exact List.mem_map.mpr ⟨p, List.mem_filter.mpr ⟨hp, hq⟩, rfl⟩
  · constructor
    · rintro ⟨s, hs, hst, _⟩
      rw [hunf] at hs
      simp only [List.mem_append] at hs
      rcases hs with ((hA | hB) | hC) | hD
      · obtain ⟨_, hmem⟩ := mem_ite_nil hA
        simp only [List.mem_map] at hmem
        obtain ⟨p, _, heq⟩ := hmem
        rw [← heq] at hst
        exact absurd hst (by decide)
      · have hEq := mem_ite_singleton hB
        rw [hEq] at hst
        exact absurd hst (by decide)
      · have hEq := mem_ite_singleton hC
        rw [hEq] at hst
        exact absurd hst (by decide)
      · exact (mem_ite_nil hD).1
    · intro h4
      refine ⟨{ stype := "disable_constraint", confidence := 9 / 10 }, ?_,
        rfl, rfl⟩
      rw [hunf]
      simp only [List.mem_append]
      right
      rw [if_pos h4]
      exact List.mem_singleton.mpr rfl

/-- The analytics fixture for the C9 witness: 1 true positive against 3
false positives. -/
def c9Analytics : ConstraintAnalytics :=
  { constraint_id := "c9rule01", total_triggers := 4, false_positives := 3,
    true_positives := 1, precision := 1 / 4 }

/-- The store fixture for the C9 witness. -/
def c9Store : Store := [("c9rule01", c9Analytics)]

/-- The rule fixture for the C9 witness: one broad-wildcard pattern. -/
def c9Rule : Constraint :=
  { constraint_id := "c9rule01", version := 2, trigger_patterns := ["mock.*"] }

/-- Witness for C9: on the fixture both the narrow-pattern and the
disable suggestions are emitted. -/
theorem C9_suggestions_witness :
    (∃ s ∈ suggest_improvements c9Store [c9Rule] "c9rule01",
      s.stype = "narrow_pattern" ∧ s.confidence = 3 / 4) ∧
    (∃ s ∈ suggest_improvements c9Store [c9Rule] "c9rule01",
      s.stype = "disable_constraint" ∧ s.confidence = 9 / 10) := by
  have h := C9_suggestions c9Store [c9Rule] "c9rule01" c9Analytics c9Rule
    (by with_unfolding_all rfl) (by with_unfolding_all rfl)
  constructor
  · refine h.1.mpr ⟨?_, "mock.*", by decide, by decide⟩
    have hr : suggestFpRate c9Analytics = 3 / 4 := by
      with_unfolding_all rfl
    rw [hr]
    norm_num
  · refine h.2.mpr ?_
    have hp : c9Analytics.precision = 1 / 4 := rfl
    rw [hp]
    norm_num
